import Mathlib

/-!
Verification of the pressense synthesizer core against its specification.

Shallow embedding of the relevant C++ classes:
* `AdsrEnvelope`        — src/lib/synth/adsr_envelope.hpp
* `SimpleVoiceAllocator`— src/lib/synth/output_processor.hpp (lines 391-510)
* `StreamProcessor`     — src/unnamed/part_014 (stream_processor.cpp)
* `WavetableOscillator` — src/lib/synth/output_processor.hpp (lines 268-365)
* `BiquadFilter`        — src/lib/synth/adsr_envelope.hpp (second document: biquad_filter.hpp)
* `WavetableSynth`      — src/unnamed/part_011 (sawtooth_synth.hpp)
* `ProgramData` / `applyProgramToVoices` — src/lib/midi/program_data.hpp
* `FilesystemProgramStorage.loadProgram` — src/lib/features/filesystem_program_storage.hpp

C++ `float` values are embedded as `ℚ`; decimal literals are taken at their
decimal value.  Transcendental library calls (`std::pow`, `std::cos`,
`std::sin`) are abstracted as explicit function parameters, keeping every
definition computable.
-/

namespace Pressense

/-- Envelope phases, from `AdsrEnvelope::Phase`. -/
inductive AdsrPhase
  | IDLE
  | ATTACK
  | DECAY
  | SUSTAIN
  | RELEASE
deriving DecidableEq, Repr

/-- State of `synth::AdsrEnvelope` (adsr_envelope.hpp).  Field defaults are the
C++ member initializers: attack 0.01 s, decay 0.05 s, sustain 0.7,
release 0.1 s. -/
structure AdsrEnvelope where
  sampleRate : ℚ
  attackTime : ℚ := 1/100
  decayTime : ℚ := 1/20
  sustainLevel : ℚ := 7/10
  releaseTime : ℚ := 1/10
  attackRate : ℚ := 0
  decayRate : ℚ := 0
  releaseRate : ℚ := 0
  phase : AdsrPhase := .IDLE
  level : ℚ := 0
deriving DecidableEq, Repr

namespace AdsrEnvelope

/-- `AdsrEnvelope::updateRates`: each rate is recomputed from the current
parameters; a non-positive time yields rate 1.0. -/
def updateRates (e : AdsrEnvelope) : AdsrEnvelope :=
  { e with
    attackRate := if e.attackTime > 0 then 1 / (e.attackTime * e.sampleRate) else 1
    decayRate := if e.decayTime > 0 then (1 - e.sustainLevel) / (e.decayTime * e.sampleRate) else 1
    releaseRate := if e.releaseTime > 0 then e.sustainLevel / (e.releaseTime * e.sampleRate) else 1 }

/-- The constructor `AdsrEnvelope(float sampleRate)`: member defaults, then
`updateRates()`. -/
def mk' (sampleRate : ℚ) : AdsrEnvelope :=
  updateRates { sampleRate := sampleRate }

/-- `AdsrEnvelope::setParameters`. -/
def setParameters (e : AdsrEnvelope) (attack decay sustain release : ℚ) : AdsrEnvelope :=
  updateRates { e with
    attackTime := attack, decayTime := decay,
    sustainLevel := sustain, releaseTime := release }

/-- `AdsrEnvelope::setAttackTime`. -/
def setAttackTime (e : AdsrEnvelope) (time : ℚ) : AdsrEnvelope :=
  updateRates { e with attackTime := time }

/-- `AdsrEnvelope::setDecayTime`. -/
def setDecayTime (e : AdsrEnvelope) (time : ℚ) : AdsrEnvelope :=
  updateRates { e with decayTime := time }

/-- `AdsrEnvelope::setSustainLevel`.  Note: the C++ body is
`sustainLevel_ = level;` only — it does not call `updateRates()` and does not
clamp. -/
def setSustainLevel (e : AdsrEnvelope) (level : ℚ) : AdsrEnvelope :=
  { e with sustainLevel := level }

/-- `AdsrEnvelope::setReleaseTime`. -/
def setReleaseTime (e : AdsrEnvelope) (time : ℚ) : AdsrEnvelope :=
  updateRates { e with releaseTime := time }

/-- `AdsrEnvelope::trigger`. -/
def trigger (e : AdsrEnvelope) : AdsrEnvelope :=
  { e with phase := .ATTACK, level := 0 }

/-- `AdsrEnvelope::release`. -/
def release (e : AdsrEnvelope) : AdsrEnvelope :=
  if e.phase ≠ .IDLE then { e with phase := .RELEASE } else e

/-- `AdsrEnvelope::nextSample`: returns the level after the per-phase update,
together with the updated envelope. -/
def nextSample (e : AdsrEnvelope) : ℚ × AdsrEnvelope :=
  match e.phase with
  | .ATTACK =>
      let l := e.level + e.attackRate
      if l ≥ 1 then (1, { e with level := 1, phase := .DECAY })
      else (l, { e with level := l })
  | .DECAY =>
      let l := e.level - e.decayRate
      if l ≤ e.sustainLevel then
        (e.sustainLevel, { e with level := e.sustainLevel, phase := .SUSTAIN })
      else (l, { e with level := l })
  | .SUSTAIN => (e.sustainLevel, { e with level := e.sustainLevel })
  | .RELEASE =>
      let l := e.level - e.releaseRate
      if l ≤ 0 then (0, { e with level := 0, phase := .IDLE })
      else (l, { e with level := l })
  | .IDLE => (0, { e with level := 0 })

/-- `AdsrEnvelope::isActive`. -/
def isActive (e : AdsrEnvelope) : Bool :=
  e.phase != .IDLE

/-- The relation claimed by the spec between the stored rates and the current
parameter values (rates equal the formulas, 1.0 for a zero time). -/
def ratesMatch (e : AdsrEnvelope) : Prop :=
  e.attackRate = (if e.attackTime > 0 then 1 / (e.attackTime * e.sampleRate) else 1)
  ∧ e.decayRate = (if e.decayTime > 0 then (1 - e.sustainLevel) / (e.decayTime * e.sampleRate) else 1)
  ∧ e.releaseRate = (if e.releaseTime > 0 then e.sustainLevel / (e.releaseTime * e.sampleRate) else 1)

end AdsrEnvelope

/-- C7 counterexample: after `setSustainLevel` the decay rate does NOT satisfy
`decayRate = (1 − sustain)/(decay · sampleRate)` for the current sustain level:
starting from the default envelope at 44100 Hz (sustain 0.7) and setting the
sustain level to 0.2, the stored decay rate is still (1−0.7)/(0.05·44100),
not (1−0.2)/(0.05·44100). -/
theorem adsr_setSustainLevel_leaves_stale_decayRate :
    ((AdsrEnvelope.mk' 44100).setSustainLevel (1/5)).decayRate
      ≠ (1 - ((AdsrEnvelope.mk' 44100).setSustainLevel (1/5)).sustainLevel)
        / (((AdsrEnvelope.mk' 44100).setSustainLevel (1/5)).decayTime
            * ((AdsrEnvelope.mk' 44100).setSustainLevel (1/5)).sampleRate) := by
  simp only [AdsrEnvelope.setSustainLevel, AdsrEnvelope.mk', AdsrEnvelope.updateRates]
  norm_num

/-- C7 (amended): `setParameters`, `setAttackTime`, `setDecayTime` and
`setReleaseTime` recompute the derived rates so that they equal
attackRate = 1/(attack·sampleRate), decayRate = (1−sustain)/(decay·sampleRate),
releaseRate = sustain/(release·sampleRate) for the current parameter values
(rate 1.0 when the corresponding time is not positive); `setSustainLevel`
updates only the sustain level and leaves all three stored rates unchanged. -/
theorem adsr_rates_after_setters (e : AdsrEnvelope) (a d s r t : ℚ) :
    AdsrEnvelope.ratesMatch (e.setParameters a d s r)
    ∧ AdsrEnvelope.ratesMatch (e.setAttackTime t)
    ∧ AdsrEnvelope.ratesMatch (e.setDecayTime t)
    ∧ AdsrEnvelope.ratesMatch (e.setReleaseTime t)
    ∧ (e.setSustainLevel s).attackRate = e.attackRate
    ∧ (e.setSustainLevel s).decayRate = e.decayRate
    ∧ (e.setSustainLevel s).releaseRate = e.releaseRate := by
  refine ⟨?_, ?_, ?_, ?_, rfl, rfl, rfl⟩ <;>
    simp [AdsrEnvelope.setParameters, AdsrEnvelope.setAttackTime, AdsrEnvelope.setDecayTime,
      AdsrEnvelope.setReleaseTime, AdsrEnvelope.updateRates, AdsrEnvelope.ratesMatch]

/-- A caller-visible operation on an `AdsrEnvelope`. -/
inductive AdsrOp
  | setParameters (a d s r : ℚ)
  | setAttackTime (t : ℚ)
  | setDecayTime (t : ℚ)
  | setSustainLevel (l : ℚ)
  | setReleaseTime (t : ℚ)
  | trigger
  | release
  | next
deriving DecidableEq, Repr

namespace AdsrOp

/-- Apply one operation to an envelope (the value returned by `nextSample` is
its stored level after the call, so the state suffices). -/
def apply (e : AdsrEnvelope) : AdsrOp → AdsrEnvelope
  | .setParameters a d s r => e.setParameters a d s r
  | .setAttackTime t => e.setAttackTime t
  | .setDecayTime t => e.setDecayTime t
  | .setSustainLevel l => e.setSustainLevel l
  | .setReleaseTime t => e.setReleaseTime t
  | .trigger => e.trigger
  | .release => e.release
  | .next => (e.nextSample).2

/-- Run a sequence of operations. -/
def run (e : AdsrEnvelope) (ops : List AdsrOp) : AdsrEnvelope :=
  ops.foldl apply e

/-- An operation supplies only in-range sustain levels. -/
def sustainOk : AdsrOp → Prop
  | .setParameters _ _ s _ => 0 ≤ s ∧ s ≤ 1
  | .setSustainLevel l => 0 ≤ l ∧ l ≤ 1
  | _ => True

instance : DecidablePred sustainOk := by
  intro op; unfold sustainOk; cases op <;> infer_instance

end AdsrOp

namespace AdsrEnvelope

/-- Inductive invariant carrying the level bound: in-range sustain and level,
nonnegative rates, positive sample rate. -/
def Good (e : AdsrEnvelope) : Prop :=
  0 ≤ e.sustainLevel ∧ e.sustainLevel ≤ 1
  ∧ 0 ≤ e.level ∧ e.level ≤ 1
  ∧ 0 ≤ e.attackRate ∧ 0 ≤ e.decayRate ∧ 0 ≤ e.releaseRate
  ∧ 0 < e.sampleRate

theorem good_updateRates (e : AdsrEnvelope)
    (hs0 : 0 ≤ e.sustainLevel) (hs1 : e.sustainLevel ≤ 1)
    (hl0 : 0 ≤ e.level) (hl1 : e.level ≤ 1) (hsr : 0 < e.sampleRate) :
    Good (updateRates e) := by
  refine ⟨?_, ?_, ?_, ?_, ?_, ?_, ?_, ?_⟩ <;> simp only [Good, updateRates]
  · exact hs0
  · exact hs1
  · exact hl0
  · exact hl1
  · split
    · rename_i h
      have h2 : (0:ℚ) < e.attackTime * e.sampleRate := mul_pos h hsr
      positivity
    · norm_num
  · split
    · rename_i h
      have h1 : (0:ℚ) ≤ 1 - e.sustainLevel := by linarith
      have h2 : (0:ℚ) < e.decayTime * e.sampleRate := mul_pos h hsr
      exact div_nonneg h1 (le_of_lt h2)
    · norm_num
  · split
    · rename_i h
      have h2 : (0:ℚ) < e.releaseTime * e.sampleRate := mul_pos h hsr
      exact div_nonneg hs0 (le_of_lt h2)
    · norm_num
  · exact hsr

theorem good_nextSample (e : AdsrEnvelope) (hg : Good e) : Good (nextSample e).2 := by
  obtain ⟨hs0, hs1, hl0, hl1, ha, hd, hr, hsr⟩ := hg
  unfold nextSample
  match e.phase with
  | .ATTACK =>
      simp only
      split
      · exact ⟨hs0, hs1, zero_le_one, le_refl 1, ha, hd, hr, hsr⟩
      · rename_i hlt
        push_neg at hlt
        exact ⟨hs0, hs1, by simp only; linarith, by simp only; linarith, ha, hd, hr, hsr⟩
  | .DECAY =>
      simp only
      split
      · exact ⟨hs0, hs1, hs0, hs1, ha, hd, hr, hsr⟩
      · rename_i hlt
        push_neg at hlt
        exact ⟨hs0, hs1, by simp only; linarith, by simp only; linarith, ha, hd, hr, hsr⟩
  | .SUSTAIN => exact ⟨hs0, hs1, hs0, hs1, ha, hd, hr, hsr⟩
  | .RELEASE =>
      simp only
      split
      · exact ⟨hs0, hs1, le_refl 0, zero_le_one, ha, hd, hr, hsr⟩
      · rename_i hlt
        push_neg at hlt
        exact ⟨hs0, hs1, by simp only; linarith, by simp only; linarith, ha, hd, hr, hsr⟩
  | .IDLE => exact ⟨hs0, hs1, le_refl 0, zero_le_one, ha, hd, hr, hsr⟩

theorem good_apply (e : AdsrEnvelope) (op : AdsrOp)
    (hg : Good e) (hok : AdsrOp.sustainOk op) : Good (AdsrOp.apply e op) := by
  obtain ⟨hs0, hs1, hl0, hl1, ha, hd, hr, hsr⟩ := hg
  cases op with
  | setParameters a d s r =>
      obtain ⟨h0, h1⟩ := hok
      exact good_updateRates
        { e with attackTime := a, decayTime := d, sustainLevel := s, releaseTime := r }
        h0 h1 hl0 hl1 hsr
  | setAttackTime t =>
      exact good_updateRates { e with attackTime := t } hs0 hs1 hl0 hl1 hsr
  | setDecayTime t =>
      exact good_updateRates { e with decayTime := t } hs0 hs1 hl0 hl1 hsr
  | setSustainLevel l =>
      obtain ⟨h0, h1⟩ := hok
      exact ⟨h0, h1, hl0, hl1, ha, hd, hr, hsr⟩
  | setReleaseTime t =>
      exact good_updateRates { e with releaseTime := t } hs0 hs1 hl0 hl1 hsr
  | trigger => exact ⟨hs0, hs1, le_refl 0, zero_le_one, ha, hd, hr, hsr⟩
  | release =>
      show Good (AdsrEnvelope.release e)
      unfold AdsrEnvelope.release
      split <;> exact ⟨hs0, hs1, hl0, hl1, ha, hd, hr, hsr⟩
  | next => exact good_nextSample e ⟨hs0, hs1, hl0, hl1, ha, hd, hr, hsr⟩

theorem good_run (e : AdsrEnvelope) (ops : List AdsrOp)
    (hg : Good e) (hok : ∀ op ∈ ops, AdsrOp.sustainOk op) : Good (AdsrOp.run e ops) := by
  induction ops generalizing e with
  | nil => exact hg
  | cons op rest ih =>
      exact ih _ (good_apply e op hg (hok op (by simp)))
        (fun o ho => hok o (by simp [ho]))

theorem good_mk' (sr : ℚ) (hsr : 0 < sr) : Good (mk' sr) :=
  good_updateRates { sampleRate := sr } (by norm_num) (by norm_num)
    (le_refl 0) zero_le_one hsr

/-- The value returned by `nextSample` is the stored level afterwards. -/
theorem nextSample_fst (e : AdsrEnvelope) : (nextSample e).1 = (nextSample e).2.level := by
  unfold nextSample
  match e.phase with
  | .ATTACK => simp only; split <;> rfl
  | .DECAY => simp only; split <;> rfl
  | .SUSTAIN => rfl
  | .RELEASE => simp only; split <;> rfl
  | .IDLE => rfl

end AdsrEnvelope

/-- C8 counterexample: the sustain level is not clamped at the point of entry,
and an out-of-range sustain level reaches the output of `nextSample`.
With parameters attack = 0, decay = 0, sustain = 1.5, release = 0, triggering
and sampling twice returns 1.5 ∉ [0, 1]: the attack snaps to 1, and the decay
step snaps the level to the unclamped sustain level. -/
theorem adsr_unclamped_sustain_escapes_unit_interval :
    (AdsrEnvelope.nextSample
      (AdsrEnvelope.nextSample
        (AdsrEnvelope.trigger
          (AdsrEnvelope.setParameters (AdsrEnvelope.mk' 44100) 0 0 (3/2) 0))).2).1 = 3/2
    ∧ ¬ ((AdsrEnvelope.nextSample
      (AdsrEnvelope.nextSample
        (AdsrEnvelope.trigger
          (AdsrEnvelope.setParameters (AdsrEnvelope.mk' 44100) 0 0 (3/2) 0))).2).1 ≤ 1) := by
  constructor <;>
    norm_num [AdsrEnvelope.mk', AdsrEnvelope.setParameters, AdsrEnvelope.updateRates,
      AdsrEnvelope.trigger, AdsrEnvelope.nextSample]

/-- C8 (amended): for every sequence of `AdsrEnvelope` operations whose sustain
writes stay in [0, 1] (times may be arbitrary), at every reachable state of an
envelope constructed with a positive sample rate the value returned by
`nextSample` lies in [0, 1].  `setSustainLevel` does not clamp, so an
out-of-range sustain level can drive the output outside [0, 1]. -/
theorem adsr_level_in_unit_interval (sr : ℚ) (ops : List AdsrOp)
    (hsr : 0 < sr) (hok : ∀ op ∈ ops, AdsrOp.sustainOk op) :
    0 ≤ (AdsrEnvelope.nextSample (AdsrOp.run (AdsrEnvelope.mk' sr) ops)).1
    ∧ (AdsrEnvelope.nextSample (AdsrOp.run (AdsrEnvelope.mk' sr) ops)).1 ≤ 1 := by
  have hg : AdsrEnvelope.Good (AdsrOp.run (AdsrEnvelope.mk' sr) ops) :=
    AdsrEnvelope.good_run _ _ (AdsrEnvelope.good_mk' sr hsr) hok
  have hg2 : AdsrEnvelope.Good
      ((AdsrEnvelope.nextSample (AdsrOp.run (AdsrEnvelope.mk' sr) ops)).2) :=
    AdsrEnvelope.good_apply _ AdsrOp.next hg trivial
  rw [AdsrEnvelope.nextSample_fst]
  exact ⟨hg2.2.2.1, hg2.2.2.2.1⟩

/-- C8 witness: instantiating the range theorem at sample rate 44100 and a
concrete operation sequence. -/
theorem adsr_level_in_unit_interval_witness :
    0 ≤ (AdsrEnvelope.nextSample
        (AdsrOp.run (AdsrEnvelope.mk' 44100) [AdsrOp.trigger, AdsrOp.next, AdsrOp.release])).1
    ∧ (AdsrEnvelope.nextSample
        (AdsrOp.run (AdsrEnvelope.mk' 44100) [AdsrOp.trigger, AdsrOp.next, AdsrOp.release])).1 ≤ 1 :=
  adsr_level_in_unit_interval 44100 [AdsrOp.trigger, AdsrOp.next, AdsrOp.release]
    (by norm_num) (by decide)

/-- Calls the decoder/allocator layer makes on a `midi::Synth` voice.
`trigger` records the MIDI note and velocity; the C++ call is
`trigger(440·2^((note−69)/12), velocity/127)`, and both arguments are
determined by these two numbers. -/
inductive VoiceEvent
  | trigger (note velocity : Nat)
  | release
  | setPitchBend (bend : ℚ)
deriving DecidableEq, Repr

/-- A voice as observed through the `midi::Synth` interface during decoding.
`active` models `isActive()` (the amplitude envelope is non-Idle): it becomes
true on `trigger` and is unchanged by `release` (the envelope moves to the
RELEASE phase, which is still active — it only reaches IDLE through
`nextSample`, which the decoder and allocator never call). -/
structure SynthVoice where
  active : Bool := false
  events : List VoiceEvent := []
deriving DecidableEq, Repr

namespace SynthVoice

/-- `Synth::trigger` as seen from the decoder. -/
def trigger (v : SynthVoice) (note velocity : Nat) : SynthVoice :=
  { active := true, events := v.events ++ [.trigger note velocity] }

/-- `Synth::release` as seen from the decoder. -/
def release (v : SynthVoice) : SynthVoice :=
  { v with events := v.events ++ [.release] }

/-- `Synth::setPitchBend` as seen from the decoder. -/
def setPitchBend (v : SynthVoice) (bend : ℚ) : SynthVoice :=
  { v with events := v.events ++ [.setPitchBend bend] }

end SynthVoice

/-- `SimpleVoiceAllocator::AllocatedVoice` (output_processor.hpp): a pool slot. -/
structure AllocSlot where
  voice : SynthVoice := {}
  assignedNote : Nat := 0
  isAllocated : Bool := false
deriving DecidableEq, Repr

/-- Default slot, used with `List.getD`. -/
def dSlot : AllocSlot := {}

/-- `midi::SimpleVoiceAllocator` state: the fixed voice pool and the
round-robin index. -/
structure SimpleVoiceAllocator where
  slots : List AllocSlot
  lastAllocatedIndex : Nat := 0
deriving DecidableEq, Repr

namespace SimpleVoiceAllocator

/-- One `for (auto& voice : voices)` search loop: first index (counting from
`i`) whose slot satisfies `p`. -/
def findIdxAux (p : AllocSlot → Bool) : List AllocSlot → Nat → Option Nat
  | [], _ => none
  | sl :: rest, i => if p sl then some i else findIdxAux p rest (i + 1)

/-- In-place update of the slot at index `i` (mutation through the reference
obtained by the C++ loop). -/
def modifySlot : List AllocSlot → Nat → (AllocSlot → AllocSlot) → List AllocSlot
  | [], _, _ => []
  | sl :: rest, 0, f => f sl :: rest
  | sl :: rest, i + 1, f => sl :: modifySlot rest i f

/-- The stealing tail of `allocate`: `voiceToSteal->synth->release();` then
reassign `assignedNote` and `isAllocated`. -/
def stealSlot (a : SimpleVoiceAllocator) (i note : Nat) : SimpleVoiceAllocator :=
  { a with slots := modifySlot a.slots i (fun sl =>
      { sl with voice := sl.voice.release, assignedNote := note, isAllocated := true }) }

/-- `SimpleVoiceAllocator::allocate` (output_processor.hpp lines 446-487).
Returns the updated allocator and the index of the returned voice's slot:
1. slot already allocated to this note — return it unchanged;
2. first unallocated slot — assign and return;
3. steal: first slot whose voice is inactive, else round-robin at
   `(lastAllocatedIndex + 1) % size` (updating `lastAllocatedIndex`);
   the stolen voice is released before reassignment. -/
def allocate (a : SimpleVoiceAllocator) (midiNote : Nat) : SimpleVoiceAllocator × Nat :=
  match findIdxAux (fun sl => sl.isAllocated && sl.assignedNote == midiNote) a.slots 0 with
  | some i => (a, i)
  | none =>
    match findIdxAux (fun sl => !sl.isAllocated) a.slots 0 with
    | some i =>
        ({ a with slots := modifySlot a.slots i (fun sl =>
            { sl with assignedNote := midiNote, isAllocated := true }) }, i)
    | none =>
      match findIdxAux (fun sl => !sl.voice.active) a.slots 0 with
      | some i => (stealSlot a i midiNote, i)
      | none =>
          let voiceIndex := (a.lastAllocatedIndex + 1) % a.slots.length
          (stealSlot { a with lastAllocatedIndex := voiceIndex } voiceIndex midiNote, voiceIndex)

/-- `SimpleVoiceAllocator::findAllocated`: index of the slot currently
allocated to the note, if any (the C++ returns the voice pointer). -/
def findAllocated (a : SimpleVoiceAllocator) (midiNote : Nat) : Option Nat :=
  findIdxAux (fun sl => sl.isAllocated && sl.assignedNote == midiNote) a.slots 0

/-- `SimpleVoiceAllocator::forEachVoice`: apply `f` to every voice in pool
order. -/
def forEachVoice (a : SimpleVoiceAllocator) (f : SynthVoice → SynthVoice) : SimpleVoiceAllocator :=
  { a with slots := a.slots.map (fun sl => { sl with voice := f sl.voice }) }

/-- Trigger the voice of slot `i` (the decoder's `voice.trigger(...)`). -/
def triggerVoiceAt (a : SimpleVoiceAllocator) (i note velocity : Nat) : SimpleVoiceAllocator :=
  { a with slots := modifySlot a.slots i (fun sl =>
      { sl with voice := sl.voice.trigger note velocity }) }

/-- Release the voice of slot `i` (the decoder's `voice.release()`). -/
def releaseVoiceAt (a : SimpleVoiceAllocator) (i : Nat) : SimpleVoiceAllocator :=
  { a with slots := modifySlot a.slots i (fun sl => { sl with voice := sl.voice.release }) }

/-- The allocation algorithm exactly as claim C4 and spec §4.5 word it,
using library search primitives.  This is the specification-side definition
against which `allocate` is compared. -/
def allocateSpec (a : SimpleVoiceAllocator) (midiNote : Nat) : SimpleVoiceAllocator × Nat :=
  match a.slots.findIdx? (fun sl => sl.isAllocated && sl.assignedNote == midiNote) with
  | some i => (a, i)
  | none =>
    match a.slots.findIdx? (fun sl => !sl.isAllocated) with
    | some i =>
        ({ a with slots := modifySlot a.slots i (fun sl =>
            { sl with assignedNote := midiNote, isAllocated := true }) }, i)
    | none =>
      match a.slots.findIdx? (fun sl => !sl.voice.active) with
      | some i => (stealSlot a i midiNote, i)
      | none =>
          let voiceIndex := (a.lastAllocatedIndex + 1) % a.slots.length
          (stealSlot { a with lastAllocatedIndex := voiceIndex } voiceIndex midiNote, voiceIndex)

theorem findIdxAux_eq (p : AllocSlot → Bool) (l : List AllocSlot) (i : Nat) :
    findIdxAux p l i = List.findIdx? p l i := by
  induction l generalizing i with
  | nil => rfl
  | cons sl rest ih =>
      rw [findIdxAux, List.findIdx?_cons]
      by_cases h : p sl
      · simp [h]
      · simp [h, ih (i + 1)]

theorem modifySlot_length (l : List AllocSlot) (i : Nat) (f : AllocSlot → AllocSlot) :
    (modifySlot l i f).length = l.length := by
  induction l generalizing i with
  | nil => rfl
  | cons sl rest ih =>
      cases i with
      | zero => rfl
      | succ n => simp [modifySlot, ih n]

theorem getD_modifySlot_self (l : List AllocSlot) (i : Nat) (f : AllocSlot → AllocSlot)
    (h : i < l.length) : (modifySlot l i f).getD i dSlot = f (l.getD i dSlot) := by
  induction l generalizing i with
  | nil => simp at h
  | cons sl rest ih =>
      cases i with
      | zero => rfl
      | succ n =>
          simp only [modifySlot, List.getD_cons_succ]
          exact ih n (by simpa using h)

theorem getD_modifySlot_ne (l : List AllocSlot) (i j : Nat) (f : AllocSlot → AllocSlot)
    (h : j ≠ i) : (modifySlot l i f).getD j dSlot = l.getD j dSlot := by
  induction l generalizing i j with
  | nil => rfl
  | cons sl rest ih =>
      cases i with
      | zero =>
          cases j with
          | zero => exact absurd rfl h
          | succ m => rfl
      | succ n =>
          cases j with
          | zero => rfl
          | succ m =>
              simp only [modifySlot, List.getD_cons_succ]
              exact ih n m (by omega)

theorem findIdxAux_none_of_all (p : AllocSlot → Bool) (l : List AllocSlot) (i : Nat)
    (h : ∀ sl ∈ l, p sl = false) : findIdxAux p l i = none := by
  induction l generalizing i with
  | nil => rfl
  | cons sl rest ih =>
      simp only [findIdxAux, h sl (by simp), Bool.false_eq_true, if_false]
      exact ih (i + 1) (fun s hs => h s (by simp [hs]))

theorem findIdxAux_some_lt (p : AllocSlot → Bool) (l : List AllocSlot) (i j : Nat)
    (h : findIdxAux p l i = some j) : j < i + l.length := by
  induction l generalizing i with
  | nil => simp [findIdxAux] at h
  | cons sl rest ih =>
      rw [findIdxAux] at h
      by_cases hp : p sl
      · simp only [hp, if_true, Option.some.injEq] at h
        simp [← h]
      · simp only [hp, Bool.false_eq_true, if_false] at h
        have := ih (i + 1) h
        simp only [List.length_cons]
        omega

end SimpleVoiceAllocator

/-- C4: `SimpleVoiceAllocator::allocate` implements exactly the ordered
algorithm of the claim (and spec §4.5): same-note slot returned unchanged,
else first unallocated slot assigned, else steal the first slot with an
inactive voice or (updating `lastAllocatedIndex`) the round-robin slot
`(lastAllocatedIndex + 1) mod N`, releasing the stolen voice before
reassigning it. -/
theorem allocate_implements_ordered_algorithm
    (a : SimpleVoiceAllocator) (midiNote : Nat) :
    SimpleVoiceAllocator.allocate a midiNote = SimpleVoiceAllocator.allocateSpec a midiNote := by
  unfold SimpleVoiceAllocator.allocate SimpleVoiceAllocator.allocateSpec
  rw [SimpleVoiceAllocator.findIdxAux_eq, SimpleVoiceAllocator.findIdxAux_eq,
    SimpleVoiceAllocator.findIdxAux_eq]

/-- C9: no allocator operation resets `isAllocated`.  (1) A slot allocated
before `allocate` stays allocated after it; (2) releasing a voice through the
allocator leaves every slot's `isAllocated` flag unchanged; (3) once every
slot is allocated, an `allocate` for a note held by no slot always proceeds by
stealing: the chosen slot's voice has `release()` called on it, even if every
voice is inactive. -/
theorem allocator_never_unallocates (a : SimpleVoiceAllocator) (note i j k : Nat) :
    ((a.slots.getD i dSlot).isAllocated = true →
      (((SimpleVoiceAllocator.allocate a note).1.slots.getD i dSlot).isAllocated = true))
    ∧ (((SimpleVoiceAllocator.releaseVoiceAt a k).slots.getD j dSlot).isAllocated
        = (a.slots.getD j dSlot).isAllocated)
    ∧ ((∀ sl ∈ a.slots, sl.isAllocated = true) → a.slots ≠ [] →
        (∀ sl ∈ a.slots, sl.assignedNote ≠ note) →
        ((SimpleVoiceAllocator.allocate a note).1.slots.getD
            (SimpleVoiceAllocator.allocate a note).2 dSlot).voice.events
          = (a.slots.getD (SimpleVoiceAllocator.allocate a note).2 dSlot).voice.events
            ++ [VoiceEvent.release]) := by
  refine ⟨?_, ?_, ?_⟩
  · -- (1) allocate never clears an isAllocated flag
    intro hi
    unfold SimpleVoiceAllocator.allocate
    cases h1 : SimpleVoiceAllocator.findIdxAux
        (fun sl => sl.isAllocated && sl.assignedNote == note) a.slots 0 with
    | some i1 => exact hi
    | none =>
      cases h2 : SimpleVoiceAllocator.findIdxAux (fun sl => !sl.isAllocated) a.slots 0 with
      | some i2 =>
          simp only
          by_cases hij : i = i2
          · subst hij
            by_cases hlt : i < a.slots.length
            · rw [SimpleVoiceAllocator.getD_modifySlot_self _ _ _ hlt]
            · rw [List.getD_eq_default] at hi
              · simp [dSlot] at hi
              · omega
          · rw [SimpleVoiceAllocator.getD_modifySlot_ne _ _ _ _ hij]
            exact hi
      | none =>
        cases h3 : SimpleVoiceAllocator.findIdxAux (fun sl => !sl.voice.active) a.slots 0 with
        | some i3 =>
            simp only [SimpleVoiceAllocator.stealSlot]
            by_cases hij : i = i3
            · subst hij
              by_cases hlt : i < a.slots.length
              · rw [SimpleVoiceAllocator.getD_modifySlot_self _ _ _ hlt]
              · rw [List.getD_eq_default] at hi
                · simp [dSlot] at hi
                · omega
            · rw [SimpleVoiceAllocator.getD_modifySlot_ne _ _ _ _ hij]
              exact hi
        | none =>
            simp only [SimpleVoiceAllocator.stealSlot]
            by_cases hij : i = (a.lastAllocatedIndex + 1) % a.slots.length
            · subst hij
              by_cases hlt : (a.lastAllocatedIndex + 1) % a.slots.length < a.slots.length
              · rw [SimpleVoiceAllocator.getD_modifySlot_self _ _ _ hlt]
              · rw [List.getD_eq_default] at hi
                · simp [dSlot] at hi
                · omega
            · rw [SimpleVoiceAllocator.getD_modifySlot_ne _ _ _ _ hij]
              exact hi
  · -- (2) releaseVoiceAt leaves every isAllocated flag unchanged
    unfold SimpleVoiceAllocator.releaseVoiceAt
    by_cases hij : j = k
    · subst hij
      by_cases hlt : j < a.slots.length
      · rw [SimpleVoiceAllocator.getD_modifySlot_self _ _ _ hlt]
      · rw [List.getD_eq_default, List.getD_eq_default]
        · omega
        · rw [SimpleVoiceAllocator.modifySlot_length]; omega
    · rw [SimpleVoiceAllocator.getD_modifySlot_ne _ _ _ _ hij]
  · -- (3) with a full pool and a fresh note, allocate steals and releases
    intro hall hne hnote
    have hp1 : SimpleVoiceAllocator.findIdxAux
        (fun sl => sl.isAllocated && sl.assignedNote == note) a.slots 0 = none := by
      apply SimpleVoiceAllocator.findIdxAux_none_of_all
      intro sl hsl
      simp [hnote sl hsl]
    have hp2 : SimpleVoiceAllocator.findIdxAux
        (fun sl => !sl.isAllocated) a.slots 0 = none := by
      apply SimpleVoiceAllocator.findIdxAux_none_of_all
      intro sl hsl
      simp [hall sl hsl]
    unfold SimpleVoiceAllocator.allocate
    rw [hp1, hp2]
    cases h3 : SimpleVoiceAllocator.findIdxAux (fun sl => !sl.voice.active) a.slots 0 with
    | some i3 =>
        have hlt : i3 < a.slots.length := by
          have := SimpleVoiceAllocator.findIdxAux_some_lt _ _ _ _ h3
          omega
        simp only [SimpleVoiceAllocator.stealSlot]
        rw [SimpleVoiceAllocator.getD_modifySlot_self _ _ _ hlt]
        rfl
    | none =>
        have hlen : 0 < a.slots.length := List.length_pos.mpr hne
        have hlt : (a.lastAllocatedIndex + 1) % a.slots.length < a.slots.length :=
          Nat.mod_lt _ hlen
        simp only [SimpleVoiceAllocator.stealSlot]
        rw [SimpleVoiceAllocator.getD_modifySlot_self _ _ _ hlt]
        rfl

/-- A fully allocated two-slot pool (notes 1 and 2, both voices active), used
to instantiate the allocator theorems. -/
def fullPool : SimpleVoiceAllocator :=
  { slots := [{ voice := { active := true }, assignedNote := 1, isAllocated := true },
              { voice := { active := true }, assignedNote := 2, isAllocated := true }] }

/-- C9 witness: on `fullPool`, allocating note 5 keeps slot 0 allocated, a
release through the allocator keeps the flags, and the allocation steals
(round-robin picks slot 1 and releases its voice). -/
theorem allocator_never_unallocates_witness :
    (((SimpleVoiceAllocator.allocate fullPool 5).1.slots.getD 0 dSlot).isAllocated = true)
    ∧ (((SimpleVoiceAllocator.releaseVoiceAt fullPool 0).slots.getD 0 dSlot).isAllocated
        = ((fullPool.slots.getD 0 dSlot).isAllocated))
    ∧ (((SimpleVoiceAllocator.allocate fullPool 5).1.slots.getD
          (SimpleVoiceAllocator.allocate fullPool 5).2 dSlot).voice.events
        = (fullPool.slots.getD
            (SimpleVoiceAllocator.allocate fullPool 5).2 dSlot).voice.events
          ++ [VoiceEvent.release]) := by
  have h := allocator_never_unallocates fullPool 5 0 0 0
  exact ⟨h.1 (by decide), h.2.1, h.2.2 (by decide) (by decide) (by decide)⟩

/-! MIDI constants from stream_processor.hpp. -/

def STATUS_BYTE_MASK : Nat := 0x80
def CHANNEL_MASK : Nat := 0x0F
def COMMAND_MASK : Nat := 0xF0
def NOTE_ON_COMMAND : Nat := 0x90
def NOTE_OFF_COMMAND : Nat := 0x80
def POLY_AFTERTOUCH_COMMAND : Nat := 0xA0
def CONTROL_CHANGE_COMMAND : Nat := 0xB0
def PROGRAM_CHANGE_COMMAND : Nat := 0xC0
def PITCH_BEND_COMMAND : Nat := 0xE0
def SYSTEM_REALTIME_MIN : Nat := 0xF8
def SYSTEM_REALTIME_MAX : Nat := 0xFF

/-- `StreamProcessor::ProcessorState`. -/
inductive ProcessorState
  | Initial
  | Need2Bytes
  | Need1Byte
deriving DecidableEq, Repr

/-- `midi::StreamProcessor` state (src/unnamed/part_014).  The control-change,
poly-aftertouch and program-change callbacks are modelled as not provided
(`nullptr`), so those branches parse the message but change no state; the
claims under verification do not involve the callbacks. -/
structure StreamProcessor where
  alloc : SimpleVoiceAllocator
  listenChannel : Nat
  processorState : ProcessorState := .Initial
  currentCommand : Nat := 0
  messageByte1 : Nat := 0
deriving DecidableEq, Repr

namespace StreamProcessor

/-- `StreamProcessor::isStatusByte`. -/
def isStatusByte (data : Nat) : Bool :=
  (data &&& STATUS_BYTE_MASK) != 0

/-- `StreamProcessor::isSystemRealTime`. -/
def isSystemRealTime (data : Nat) : Bool :=
  SYSTEM_REALTIME_MIN ≤ data && data ≤ SYSTEM_REALTIME_MAX

/-- `StreamProcessor::extractChannel`. -/
def extractChannel (statusByte : Nat) : Nat :=
  statusByte &&& CHANNEL_MASK

/-- `StreamProcessor::extractCommand`. -/
def extractCommand (statusByte : Nat) : Nat :=
  statusByte &&& COMMAND_MASK

/-- `StreamProcessor::stateFromCommandByte` (part_014 version). -/
def stateFromCommandByte (command : Nat) : ProcessorState :=
  if command ≤ 0xBF || (command &&& COMMAND_MASK) == PITCH_BEND_COMMAND then .Need2Bytes
  else if command ≤ 0xDF then .Need1Byte
  else .Initial

/-- The `processorState == Need1Byte` dispatch of `StreamProcessor::process`:
the effect of a complete message on the allocator.  Note that the NoteOff
branch (and the NoteOn branch with velocity 0) obtains its voice through
`allocate`, not `findAllocated`. -/
def handleCompleteMessage (sp : StreamProcessor) (data : Nat) : SimpleVoiceAllocator :=
  if sp.currentCommand == NOTE_ON_COMMAND then
    let note := sp.messageByte1
    let velocity := data
    let av := SimpleVoiceAllocator.allocate sp.alloc note
    if velocity == 0 then SimpleVoiceAllocator.releaseVoiceAt av.1 av.2
    else SimpleVoiceAllocator.triggerVoiceAt av.1 av.2 note velocity
  else if sp.currentCommand == NOTE_OFF_COMMAND then
    let note := sp.messageByte1
    let av := SimpleVoiceAllocator.allocate sp.alloc note
    SimpleVoiceAllocator.releaseVoiceAt av.1 av.2
  else if sp.currentCommand == POLY_AFTERTOUCH_COMMAND then
    -- findAllocated is queried; with no callback installed nothing happens
    sp.alloc
  else if sp.currentCommand == CONTROL_CHANGE_COMMAND && sp.messageByte1 < 120 then
    -- delegated to the (absent) control-change callback
    sp.alloc
  else if sp.currentCommand == PROGRAM_CHANGE_COMMAND then
    -- delegated to the (absent) program-change callback
    sp.alloc
  else if sp.currentCommand == PITCH_BEND_COMMAND then
    let lsb := sp.messageByte1
    let msb := data
    let pitchBendValue := (msb <<< 7) ||| lsb
    let normalizedBend : ℚ := ((pitchBendValue : ℚ) - 8192) / 8192
    SimpleVoiceAllocator.forEachVoice sp.alloc (fun v => v.setPitchBend normalizedBend)
  else
    sp.alloc

/-- `StreamProcessor::process` (part_014). -/
def process (sp : StreamProcessor) (data : Nat) : StreamProcessor :=
  if isSystemRealTime data then
    sp
  else if isStatusByte data then
    let channel := extractChannel data
    let command := extractCommand data
    if channel != sp.listenChannel then
      { sp with currentCommand := 0, processorState := .Initial }
    else
      { sp with currentCommand := command, processorState := stateFromCommandByte command }
  else if sp.processorState = ProcessorState.Need2Bytes then
    { sp with messageByte1 := data, processorState := .Need1Byte }
  else if sp.processorState = ProcessorState.Need1Byte then
    { sp with alloc := handleCompleteMessage sp data,
              processorState := stateFromCommandByte sp.currentCommand }
  else
    { sp with processorState := stateFromCommandByte sp.currentCommand }

/-- Feed a byte sequence to the decoder. -/
def processBytes (sp : StreamProcessor) (bytes : List Nat) : StreamProcessor :=
  bytes.foldl process sp

end StreamProcessor

/-- A fresh pool of `n` voices (the allocator constructor pre-creates all
voices; every slot starts unallocated, every voice idle). -/
def mkAllocator (n : Nat) : SimpleVoiceAllocator :=
  { slots := List.replicate n {} }

/-- A fresh decoder over a fresh pool. -/
def mkStreamProcessor (n listenChannel : Nat) : StreamProcessor :=
  { alloc := mkAllocator n, listenChannel := listenChannel }

/-- All `trigger` (NoteOn) events across the pool, in slot order, as
(note, velocity) pairs. -/
def allTriggerEvents (a : SimpleVoiceAllocator) : List (Nat × Nat) :=
  a.slots.flatMap (fun sl => sl.voice.events.filterMap (fun e =>
    match e with
    | .trigger n v => some (n, v)
    | _ => none))

/-- Number of slots currently allocated. -/
def countAllocatedSlots (a : SimpleVoiceAllocator) : Nat :=
  (a.slots.filter (fun sl => sl.isAllocated)).length

/-- State of the specification-side message counter. -/
structure SpecMsgCounter where
  command : Nat := 0
  needed : Nat := 0
  count : Nat := 0
deriving DecidableEq, Repr

/-- Data bytes per channel-voice command, from the spec §4.6 table. -/
def specDataByteCount (c : Nat) : Nat :=
  if c = 0x80 ∨ c = 0x90 ∨ c = 0xA0 ∨ c = 0xB0 ∨ c = 0xE0 then 2
  else if c = 0xC0 ∨ c = 0xD0 then 1
  else 0

/-- One byte of the specification-side counter for complete NoteOn messages
with velocity > 0 on the listen channel, following the spec §4.6 framing rules
(real-time transparency, running status, wrong-channel and system statuses
clear the running status).  This is the measuring function of claim C2's
right-hand side. -/
def specNoteOnStep (listen : Nat) (s : SpecMsgCounter) (data : Nat) : SpecMsgCounter :=
  if 0xF8 ≤ data ∧ data ≤ 0xFF then s
  else if 0x80 ≤ data then
    let command := data &&& 0xF0
    if command = 0xF0 then { command := 0, needed := 0, count := s.count }
    else if data &&& 0x0F ≠ listen then { command := 0, needed := 0, count := s.count }
    else { command := command, needed := specDataByteCount command, count := s.count }
  else
    if s.command = 0 then s
    else
      let need := if s.needed = 0 then specDataByteCount s.command else s.needed
      if need = 0 then s
      else if need = 1 then
        { s with needed := 0,
                 count := s.count + (if s.command = 0x90 ∧ data ≠ 0 then 1 else 0) }
      else { s with needed := need - 1 }

/-- Number of complete NoteOn messages with velocity > 0 on the listen channel
in a byte sequence (spec-side count). -/
def specNoteOnCount (listen : Nat) (bytes : List Nat) : Nat :=
  (bytes.foldl (specNoteOnStep listen) {}).count

/-- A data byte (value < 128) is neither a real-time byte nor a status byte. -/
theorem data_byte_classification (d : Nat) (h : d < 128) :
    StreamProcessor.isSystemRealTime d = false ∧ StreamProcessor.isStatusByte d = false := by
  constructor
  · simp only [StreamProcessor.isSystemRealTime, SYSTEM_REALTIME_MIN, SYSTEM_REALTIME_MAX]
    simp only [Bool.and_eq_false_iff, decide_eq_false_iff_not, not_le]
    left
    omega
  · have h7 : d.testBit 7 = false := Nat.testBit_lt_two_pow (show d < 2 ^ 7 by omega)
    have h2 := Nat.and_two_pow d 7
    rw [h7] at h2
    norm_num at h2
    simp [StreamProcessor.isStatusByte, STATUS_BYTE_MASK, h2]

/-- C1: evidence for the code bug.  The part_014 NoteOff handler obtains its
voice through `allocate`, not `findAllocated`.  With a single-voice pool, after
NoteOn(60, 100), the NoteOff for the *unassigned* note 64 is not a no-op: it
steals the active voice of note 60 (round-robin), releases it, and reassigns
the slot to note 64, so `findAllocated(60)` afterwards returns nothing.  The
claim requires this message to leave the allocator and voices untouched. -/
theorem noteOff_for_unassigned_note_steals_active_voice :
    ((StreamProcessor.processBytes (mkStreamProcessor 1 0)
        [0x90, 60, 100, 0x80, 64, 0]).alloc.slots.getD 0 dSlot).assignedNote = 64
    ∧ ((StreamProcessor.processBytes (mkStreamProcessor 1 0)
        [0x90, 60, 100, 0x80, 64, 0]).alloc.slots.getD 0 dSlot).voice.events
        = [VoiceEvent.trigger 60 100, VoiceEvent.release, VoiceEvent.release]
    ∧ SimpleVoiceAllocator.findAllocated
        (StreamProcessor.processBytes (mkStreamProcessor 1 0)
          [0x90, 60, 100, 0x80, 64, 0]).alloc 60 = none := by
  refine ⟨?_, ?_, ?_⟩ <;> rfl

/-- C2: evidence for the code bug.  Feeding only a NoteOff message
(bytes 0x80, 60, 64) to a fresh two-voice decoder allocates one slot (the
NoteOff handler calls `allocate`), while the byte sequence contains zero
complete NoteOn messages with velocity > 0 — violating the claimed bound
(1 allocation ≤ 0 NoteOn messages is false). -/
theorem noteOff_allocates_with_zero_noteOn_messages :
    countAllocatedSlots (StreamProcessor.processBytes (mkStreamProcessor 2 0)
        [0x80, 60, 64]).alloc = 1
    ∧ specNoteOnCount 0 [0x80, 60, 64] = 0
    ∧ ¬ (countAllocatedSlots (StreamProcessor.processBytes (mkStreamProcessor 2 0)
          [0x80, 60, 64]).alloc ≤ specNoteOnCount 0 [0x80, 60, 64]) := by
  refine ⟨rfl, rfl, ?_⟩
  decide

/-- C5: a complete PitchBend message on the listen channel broadcasts
`setPitchBend(((msb<<7)|lsb − 8192)/8192)` to every voice in the pool
(via `forEachVoice`, allocated or not); the normalized value lies in [−1, 1)
and is exactly 0 for the center value (LSB = 0, MSB = 64). -/
theorem pitchBend_broadcasts_to_all_voices (sp : StreamProcessor) (msb : Nat)
    (h1 : sp.processorState = ProcessorState.Need1Byte)
    (h2 : sp.currentCommand = PITCH_BEND_COMMAND)
    (h3 : sp.messageByte1 < 128) (h4 : msb < 128) :
    (StreamProcessor.process sp msb).alloc.slots
      = sp.alloc.slots.map (fun sl =>
          { sl with voice := (sl.voice.setPitchBend
              (((((msb <<< 7) ||| sp.messageByte1 : Nat) : ℚ) - 8192) / 8192)) })
    ∧ (-1 : ℚ) ≤ ((((msb <<< 7) ||| sp.messageByte1 : Nat) : ℚ) - 8192) / 8192
    ∧ ((((msb <<< 7) ||| sp.messageByte1 : Nat) : ℚ) - 8192) / 8192 < 1
    ∧ (sp.messageByte1 = 0 → msb = 64 →
        ((((msb <<< 7) ||| sp.messageByte1 : Nat) : ℚ) - 8192) / 8192 = 0) := by
  obtain ⟨hrt, hsb⟩ := data_byte_classification msb h4
  refine ⟨?_, ?_, ?_, ?_⟩
  · unfold StreamProcessor.process
    simp only [hrt, hsb, Bool.false_eq_true, if_false, h1]
    have hne : (ProcessorState.Need1Byte = ProcessorState.Need2Bytes) = False := by
      simp
    simp only [hne, if_false, if_true]
    simp only [StreamProcessor.handleCompleteMessage, h2, PITCH_BEND_COMMAND,
      NOTE_ON_COMMAND, NOTE_OFF_COMMAND, POLY_AFTERTOUCH_COMMAND,
      CONTROL_CHANGE_COMMAND, PROGRAM_CHANGE_COMMAND]
    norm_num
    simp [SimpleVoiceAllocator.forEachVoice]
  · have hv : (0 : ℚ) ≤ (((msb <<< 7) ||| sp.messageByte1 : Nat) : ℚ) := by positivity
    linarith
  · have hlt : ((msb <<< 7) ||| sp.messageByte1 : Nat) < 16384 := by
      have ha : msb <<< 7 < 2 ^ 14 := by rw [Nat.shiftLeft_eq]; omega
      have hb : sp.messageByte1 < 2 ^ 14 := by omega
      have := Nat.or_lt_two_pow ha hb
      omega
    have hv : (((msb <<< 7) ||| sp.messageByte1 : Nat) : ℚ) ≤ 16383 := by
      exact_mod_cast Nat.le_of_lt_succ (by omega)
    linarith
  · intro hlsb hmsb
    rw [hlsb, hmsb, (by decide : (64 <<< 7 ||| 0 : Nat) = 8192)]
    norm_num

/-- C5 witness: center pitch bend on a concrete decoder state awaiting the
MSB. -/
theorem pitchBend_broadcasts_to_all_voices_witness :
    (StreamProcessor.process
        { alloc := mkAllocator 2, listenChannel := 0,
          processorState := ProcessorState.Need1Byte,
          currentCommand := PITCH_BEND_COMMAND, messageByte1 := 0 } 64).alloc.slots
      = (mkAllocator 2).slots.map (fun sl =>
          { sl with voice := (sl.voice.setPitchBend
              (((((64 <<< 7) ||| 0 : Nat) : ℚ) - 8192) / 8192)) })
    ∧ (-1 : ℚ) ≤ ((((64 <<< 7) ||| 0 : Nat) : ℚ) - 8192) / 8192
    ∧ ((((64 <<< 7) ||| 0 : Nat) : ℚ) - 8192) / 8192 < 1
    ∧ ((0 : Nat) = 0 → (64 : Nat) = 64 →
        ((((64 <<< 7) ||| 0 : Nat) : ℚ) - 8192) / 8192 = 0) :=
  pitchBend_broadcasts_to_all_voices
    { alloc := mkAllocator 2, listenChannel := 0,
      processorState := ProcessorState.Need1Byte,
      currentCommand := PITCH_BEND_COMMAND, messageByte1 := 0 } 64
    rfl rfl (by decide) (by decide)

/-- C6: a data byte never changes the retained command (running status), and
the byte sequence 0x90, 60, 100, 64, 100 on listen channel 0 produces exactly
the two NoteOn events (60, 100) and (64, 100) across the whole pool. -/
theorem running_status_reuses_command (sp : StreamProcessor) (d : Nat) (hd : d < 128) :
    (StreamProcessor.process sp d).currentCommand = sp.currentCommand
    ∧ allTriggerEvents (StreamProcessor.processBytes (mkStreamProcessor 8 0)
        [0x90, 60, 100, 64, 100]).alloc = [(60, 100), (64, 100)] := by
  obtain ⟨hrt, hsb⟩ := data_byte_classification d hd
  constructor
  · unfold StreamProcessor.process
    simp only [hrt, hsb, Bool.false_eq_true, if_false]
    split
    · rfl
    · split <;> rfl
  · rfl

/-- C6 witness: instantiated at the fresh decoder and the data byte 100. -/
theorem running_status_reuses_command_witness :
    (StreamProcessor.process (mkStreamProcessor 8 0) 100).currentCommand
      = (mkStreamProcessor 8 0).currentCommand
    ∧ allTriggerEvents (StreamProcessor.processBytes (mkStreamProcessor 8 0)
        [0x90, 60, 100, 64, 100]).alloc = [(60, 100), (64, 100)] :=
  running_status_reuses_command (mkStreamProcessor 8 0) 100 (by decide)

/-- The C++ float literal for π used by `BiquadFilter::updateCoefficients`. -/
def cppPI : ℚ := 3.14159265358979323846

/-- `synth::WavetableOscillator` (output_processor.hpp lines 268-365). -/
structure WavetableOscillator where
  wavetable : List ℚ := List.replicate 256 0
  phase : ℚ := 0
  sampleRate : ℚ
deriving DecidableEq, Repr

namespace WavetableOscillator

/-- `WavetableOscillator::updateWavetable`: clamp the shape to [0, 1] and
regenerate the 256-entry table by blending sawtooth, triangle and square. -/
def updateWavetable (o : WavetableOscillator) (shape : ℚ) : WavetableOscillator :=
  let s := if shape < 0 then 0 else if shape > 1 then 1 else shape
  { o with wavetable := (List.range 256).map (fun i =>
      let t : ℚ := (i : ℚ) / 256
      let saw := 2 * t - 1
      let triangle := if t < 1/2 then 4 * t - 1 else 3 - 4 * t
      let square : ℚ := if t < 1/2 then 1 else -1
      if s < 1/2 then
        let blend := s * 2
        saw * (1 - blend) + triangle * blend
      else
        let blend := (s - 1/2) * 2
        triangle * (1 - blend) + square * blend) }

/-- `WavetableOscillator::nextSample`: linear interpolation at the current
phase, then advance the phase by frequency/sampleRate with wraparound.
(The C++ `static_cast<size_t>` truncates the non-negative table position;
`Int.toNat ∘ floor` agrees on the values reachable here.) -/
def nextSample (o : WavetableOscillator) (frequency : ℚ) : ℚ × WavetableOscillator :=
  let tablePos := o.phase * 256
  let index0 := (⌊tablePos⌋).toNat % 256
  let index1 := (index0 + 1) % 256
  let frac := tablePos - (⌊tablePos⌋ : ℚ)
  let sample := o.wavetable.getD index0 0 * (1 - frac) + o.wavetable.getD index1 0 * frac
  let p := o.phase + frequency / o.sampleRate
  (sample, { o with phase := if p ≥ 1 then p - 1 else p })

/-- `WavetableOscillator::reset`. -/
def reset (o : WavetableOscillator) : WavetableOscillator :=
  { o with phase := 0 }

/-- The constructor: uninitialized table, then `updateWavetable(0.0f)`. -/
def mk' (sampleRate : ℚ) : WavetableOscillator :=
  updateWavetable { sampleRate := sampleRate } 0

end WavetableOscillator

/-- `BiquadFilter::Mode`. -/
inductive BiquadMode
  | LOWPASS
  | HIGHPASS
  | BANDPASS
  | NOTCH
  | ALLPASS
deriving DecidableEq, Repr

/-- `synth::BiquadFilter` (biquad_filter.hpp). -/
structure BiquadFilter where
  sampleRate : ℚ
  mode : BiquadMode := .LOWPASS
  cutoffHz : ℚ := 1000
  q : ℚ := 707/1000
  b0 : ℚ := 1
  b1 : ℚ := 0
  b2 : ℚ := 0
  a1 : ℚ := 0
  a2 : ℚ := 0
  z1 : ℚ := 0
  z2 : ℚ := 0
  coeffsDirty : Bool := true
deriving DecidableEq, Repr

namespace BiquadFilter

/-- `BiquadFilter::setMode`. -/
def setMode (f : BiquadFilter) (mode : BiquadMode) : BiquadFilter :=
  if f.mode ≠ mode then { f with mode := mode, coeffsDirty := true } else f

/-- `BiquadFilter::setCutoff`: clamp to [20 Hz, 0.99·Nyquist], set the dirty
flag only on a change. -/
def setCutoff (f : BiquadFilter) (frequencyHz : ℚ) : BiquadFilter :=
  let nyquist := f.sampleRate * (1/2)
  let fr := if frequencyHz < 20 then 20 else frequencyHz
  let fr := if fr > nyquist * (99/100) then nyquist * (99/100) else fr
  if f.cutoffHz ≠ fr then { f with cutoffHz := fr, coeffsDirty := true } else f

/-- `BiquadFilter::setQ`: clamp to [0.1, 20], set the dirty flag on change. -/
def setQ (f : BiquadFilter) (qv : ℚ) : BiquadFilter :=
  let qc := if qv < 1/10 then 1/10 else qv
  let qc := if qc > 20 then 20 else qc
  if f.q ≠ qc then { f with q := qc, coeffsDirty := true } else f

/-- `BiquadFilter::updateCoefficients` (RBJ cookbook), with `std::cos` and
`std::sin` abstracted as function parameters. -/
def updateCoefficients (cosF sinF : ℚ → ℚ) (f : BiquadFilter) : BiquadFilter :=
  let w0 := 2 * cppPI * f.cutoffHz / f.sampleRate
  let cosw0 := cosF w0
  let sinw0 := sinF w0
  let alpha := sinw0 / (2 * f.q)
  let c :=
    match f.mode with
    | .LOWPASS =>
        ((1 - cosw0) / 2, 1 - cosw0, (1 - cosw0) / 2, 1 + alpha, -2 * cosw0, 1 - alpha)
    | .HIGHPASS =>
        ((1 + cosw0) / 2, -(1 + cosw0), (1 + cosw0) / 2, 1 + alpha, -2 * cosw0, 1 - alpha)
    | .BANDPASS =>
        (alpha, 0, -alpha, 1 + alpha, -2 * cosw0, 1 - alpha)
    | .NOTCH =>
        (1, -2 * cosw0, 1, 1 + alpha, -2 * cosw0, 1 - alpha)
    | .ALLPASS =>
        (1 - alpha, -2 * cosw0, 1 + alpha, 1 + alpha, -2 * cosw0, 1 - alpha)
  match c with
  | (b0, b1, b2, a0, a1, a2) =>
      { f with b0 := b0 / a0, b1 := b1 / a0, b2 := b2 / a0,
               a1 := a1 / a0, a2 := a2 / a0, coeffsDirty := false }

/-- `BiquadFilter::processSample`: lazy coefficient update, then Direct Form
II Transposed. -/
def processSample (cosF sinF : ℚ → ℚ) (f : BiquadFilter) (input : ℚ) : ℚ × BiquadFilter :=
  let f := if f.coeffsDirty then updateCoefficients cosF sinF f else f
  let output := f.b0 * input + f.z1
  (output, { f with z1 := f.b1 * input - f.a1 * output + f.z2,
                    z2 := f.b2 * input - f.a2 * output })

/-- `BiquadFilter::reset`. -/
def reset (f : BiquadFilter) : BiquadFilter :=
  { f with z1 := 0, z2 := 0 }

/-- The constructor: defaults, `reset()`, `updateCoefficients()`. -/
def mk' (cosF sinF : ℚ → ℚ) (sampleRate : ℚ) : BiquadFilter :=
  updateCoefficients cosF sinF { sampleRate := sampleRate }

end BiquadFilter

/-- `synth::WavetableSynth` (src/unnamed/part_011): oscillator, filter, two
envelopes and voice parameters.  Field defaults are the C++ member
initializers. -/
structure WavetableSynth where
  sampleRate : ℚ
  oscillator : WavetableOscillator
  filter : BiquadFilter
  ampEnvelope : AdsrEnvelope
  filterEnvelope : AdsrEnvelope
  baseFrequency : ℚ := 440
  volume : ℚ := 1
  pitchBend : ℚ := 0
  pitchBendRange : ℚ := 2
  baseCutoff : ℚ := 1000
  filterEnvAmount : ℚ := 1/2
deriving DecidableEq, Repr

namespace WavetableSynth

/-- `WavetableSynth::trigger`. -/
def trigger (s : WavetableSynth) (frequencyHz volume : ℚ) : WavetableSynth :=
  { s with baseFrequency := frequencyHz, volume := volume,
           oscillator := s.oscillator.reset, filter := s.filter.reset,
           ampEnvelope := s.ampEnvelope.trigger,
           filterEnvelope := s.filterEnvelope.trigger }

/-- `WavetableSynth::release`. -/
def release (s : WavetableSynth) : WavetableSynth :=
  { s with ampEnvelope := s.ampEnvelope.release,
           filterEnvelope := s.filterEnvelope.release }

/-- `WavetableSynth::setPitchBend` (no clamping in the source). -/
def setPitchBend (s : WavetableSynth) (bendAmount : ℚ) : WavetableSynth :=
  { s with pitchBend := bendAmount }

/-- `WavetableSynth::setBaseCutoff` (no clamping in the source). -/
def setBaseCutoff (s : WavetableSynth) (cutoff : ℚ) : WavetableSynth :=
  { s with baseCutoff := cutoff }

/-- `WavetableSynth::setFilterEnvelopeAmount`: clamped to [0, 1]. -/
def setFilterEnvelopeAmount (s : WavetableSynth) (amount : ℚ) : WavetableSynth :=
  let a := if amount < 0 then 0 else if amount > 1 then 1 else amount
  { s with filterEnvAmount := a }

/-- `WavetableSynth::isActive`. -/
def isActive (s : WavetableSynth) : Bool :=
  s.ampEnvelope.isActive

/-- `WavetableSynth::nextSample` (part_011 lines 138-174), with `std::pow`
(`pow2 x` standing for 2^x), `std::cos` and `std::sin` abstracted.  Returns
the audio sample and the updated voice. -/
def nextSample (pow2 cosF sinF : ℚ → ℚ) (s : WavetableSynth) : ℚ × WavetableSynth :=
  if !(s.ampEnvelope.isActive) then
    (0, s)
  else
    let semitoneShift := s.pitchBend * s.pitchBendRange
    let frequency := s.baseFrequency * pow2 (semitoneShift / 12)
    let os := s.oscillator.nextSample frequency
    let fe := s.filterEnvelope.nextSample
    let envModulation := fe.1 * s.filterEnvAmount
    let modulatedCutoff := s.baseCutoff * (1 + envModulation * 9)
    let f1 := s.filter.setCutoff modulatedCutoff
    let fs := BiquadFilter.processSample cosF sinF f1 os.1
    let ae := s.ampEnvelope.nextSample
    (fs.1 * ae.1 * s.volume,
     { s with oscillator := os.2, filterEnvelope := fe.2,
              filter := fs.2, ampEnvelope := ae.2 })

/-- The constructor `WavetableSynth(float sampleRate)`: construct the
components, then apply the constructor-body settings (filter mode/Q, filter
envelope times and sustain). -/
def mk' (cosF sinF : ℚ → ℚ) (sampleRate : ℚ) : WavetableSynth :=
  let base : WavetableSynth :=
    { sampleRate := sampleRate,
      oscillator := WavetableOscillator.mk' sampleRate,
      filter := BiquadFilter.mk' cosF sinF sampleRate,
      ampEnvelope := AdsrEnvelope.mk' sampleRate,
      filterEnvelope := AdsrEnvelope.mk' sampleRate }
  { base with
    filter := (base.filter.setMode .LOWPASS).setQ (707/1000),
    filterEnvelope :=
      ((((base.filterEnvelope.setAttackTime (1/200)).setDecayTime (1/5)).setSustainLevel
        (3/10)).setReleaseTime (1/10)) }

end WavetableSynth

/-- C10: whenever the amplitude envelope is Idle, `nextSample` returns 0.0 and
leaves the whole voice state unchanged (oscillator phase, filter envelope,
filter coefficients and delay lines, everything). -/
theorem idle_voice_nextSample_identity
    (pow2 cosF sinF : ℚ → ℚ) (s : WavetableSynth)
    (h : s.ampEnvelope.phase = AdsrPhase.IDLE) :
    WavetableSynth.nextSample pow2 cosF sinF s = (0, s) := by
  unfold WavetableSynth.nextSample
  simp [AdsrEnvelope.isActive, h]

/-- A concrete voice fresh from the constructor (identity stand-ins for the
trig functions); its amplitude envelope is Idle. -/
def wsFresh : WavetableSynth :=
  WavetableSynth.mk' (fun x => x) (fun x => x) 44100

/-- C10 witness. -/
theorem idle_voice_nextSample_identity_witness :
    WavetableSynth.nextSample (fun x => x) (fun x => x) (fun x => x) wsFresh = (0, wsFresh) :=
  idle_voice_nextSample_identity (fun x => x) (fun x => x) (fun x => x) wsFresh rfl

/-- `midi::ProgramData` (program_data.hpp) with the C++ member defaults. -/
structure ProgramData where
  waveformShape : ℚ := 0
  baseCutoff : ℚ := 1000
  filterQ : ℚ := 707/1000
  filterMode : Nat := 0
  filterEnvAmount : ℚ := 1/2
  filterEnvAttack : ℚ := 1/200
  filterEnvDecay : ℚ := 1/5
  filterEnvSustain : ℚ := 3/10
  filterEnvRelease : ℚ := 1/10
deriving DecidableEq, Repr

/-- `static_cast<BiquadFilter::Mode>(int)` for the stored mode (values 0-4;
anything else is undefined behaviour in C++, mapped to LOWPASS here). -/
def modeOfNat (n : Nat) : BiquadMode :=
  match n with
  | 0 => .LOWPASS
  | 1 => .HIGHPASS
  | 2 => .BANDPASS
  | 3 => .NOTCH
  | 4 => .ALLPASS
  | _ => .LOWPASS

/-- The per-voice body of `midi::applyProgramToVoices`: the exact setter
sequence of the C++ lambda. -/
def applyProgramToVoice (p : ProgramData) (ws : WavetableSynth) : WavetableSynth :=
  let ws := { ws with oscillator := ws.oscillator.updateWavetable p.waveformShape }
  let ws := ws.setBaseCutoff p.baseCutoff
  let ws := { ws with filter := ws.filter.setQ p.filterQ }
  let ws := { ws with filter := ws.filter.setMode (modeOfNat p.filterMode) }
  let ws := ws.setFilterEnvelopeAmount p.filterEnvAmount
  let ws := { ws with filterEnvelope := ws.filterEnvelope.setAttackTime p.filterEnvAttack }
  let ws := { ws with filterEnvelope := ws.filterEnvelope.setDecayTime p.filterEnvDecay }
  let ws := { ws with filterEnvelope := ws.filterEnvelope.setSustainLevel p.filterEnvSustain }
  { ws with filterEnvelope := ws.filterEnvelope.setReleaseTime p.filterEnvRelease }

/-- `midi::applyProgramToVoices`: apply the program to every voice in the pool
(`forEachVoice` visits each voice once, in order). -/
def applyProgramToVoices (p : ProgramData) (voices : List WavetableSynth) :
    List WavetableSynth :=
  voices.map (applyProgramToVoice p)

/-- Outcome of the storage backend for `loadProgram`: the program file is
missing, reading/parsing throws, or a program is parsed. -/
inductive FileResult
  | missing
  | readError
  | ok (p : ProgramData)

/-- `FilesystemProgramStorage::loadProgram`: on a missing file or a read error
it applies the default-constructed `ProgramData` to the voices and returns
false; on success it applies the parsed program and returns true. -/
def loadProgram (fr : FileResult) (voices : List WavetableSynth) :
    Bool × List WavetableSynth :=
  match fr with
  | .missing => (false, applyProgramToVoices {} voices)
  | .readError => (false, applyProgramToVoices {} voices)
  | .ok p => (true, applyProgramToVoices p voices)

/-- A voice whose base cutoff was moved away from the default before the load
(the state "in place before the call"). -/
def wsTweaked : WavetableSynth :=
  wsFresh.setBaseCutoff 2000

/-- C3 counterexample: a failing load (missing file) does return false, but it
does NOT leave the prior voice state unchanged: the base cutoff that was 2000
before the call is reset to the default 1000. -/
theorem loadProgram_failure_modifies_voice_state :
    (loadProgram FileResult.missing [wsTweaked]).1 = false
    ∧ ((loadProgram FileResult.missing [wsTweaked]).2.getD 0 wsTweaked).baseCutoff = 1000
    ∧ wsTweaked.baseCutoff = 2000 := by
  refine ⟨rfl, rfl, rfl⟩

/-- C3 (amended): on a missing file or a read error, `loadProgram` reports
failure (returns false) to the caller, but instead of preserving the voice
state it applies the default `ProgramData` to every voice. -/
theorem loadProgram_failure_returns_false_applies_defaults
    (fr : FileResult) (voices : List WavetableSynth)
    (h : fr = FileResult.missing ∨ fr = FileResult.readError) :
    loadProgram fr voices = (false, applyProgramToVoices {} voices) := by
  rcases h with h | h <;> subst h <;> rfl

/-- C3 witness. -/
theorem loadProgram_failure_returns_false_applies_defaults_witness :
    loadProgram FileResult.missing [] = (false, applyProgramToVoices {} []) :=
  loadProgram_failure_returns_false_applies_defaults FileResult.missing [] (Or.inl rfl)

end Pressense
